import Mathlib

/-!
Shallow embedding of the tradingview-calendar-service pipeline (src/main.py).

The service exposes one endpoint `get_calendar` that

  1. fetches the weekly economic calendar from TradingView as JSON
     (`fetch_economic_calendar`),
  2. normalizes each raw record into an `EconomicEvent` (skip-and-continue on
     per-record exceptions), sorts the events by their `time` string,
  3. renders the list with `format_telegram_message`,
  4. optionally POSTs the message to `TELEGRAM_SERVICE_URL` and returns
     `{"status": "success", "data": message}`.

Network I/O is modelled by passing the upstream HTTP outcome (and the outcome
of the outbound POST) as explicit parameters; JSON bodies are modelled by the
`JValue` inductive.  JSON numbers are modelled as integers (no claim depends
on float payloads).  The process-local timezone used by
`datetime.fromtimestamp` is modelled as a fixed offset `tzOffset` in seconds.
-/

/-- A JSON value as produced by `response.json()` in Python.  Objects are
association lists; `json.loads` keeps one binding per key, and lookup takes
the first matching binding. -/
inductive JValue where
  | null
  | bool (b : Bool)
  | num (n : Int)
  | str (s : String)
  | arr (elems : List JValue)
  | obj (fields : List (String × JValue))

/-- `isinstance(x, dict)`. -/
def JValue.isObj : JValue → Bool
  | .obj _ => true
  | _ => false

/-- `isinstance(x, list)`. -/
def JValue.isArr : JValue → Bool
  | .arr _ => true
  | _ => false

/-- Lookup of a key in a Python dict (modelled as the first binding of the
association list). -/
def lookupField (fields : List (String × JValue)) (key : String) : Option JValue :=
  match fields with
  | [] => none
  | (k, v) :: rest => if k = key then some v else lookupField rest key

/-- Python `d.get(key, default)`. -/
def dictGet (fields : List (String × JValue)) (key : String) (dflt : JValue) : JValue :=
  (lookupField fields key).getD dflt

/-- A single-quote character, used by Python `repr` of strings. -/
def squote : String := String.singleton (Char.ofNat 39)

mutual
/-- Python `repr(x)` for a JSON value (string escaping inside quoted strings
is not modelled; no claim depends on it). -/
def pyRepr : JValue → String
  | .null => "None"
  | .bool true => "True"
  | .bool false => "False"
  | .num n => toString n
  | .str s => squote ++ s ++ squote
  | .arr elems => "[" ++ pyReprElems elems ++ "]"
  | .obj fields => "\x7b" ++ pyReprFields fields ++ "\x7d"

/-- Comma-separated `repr`s of list elements. -/
def pyReprElems : List JValue → String
  | [] => ""
  | [v] => pyRepr v
  | v :: rest => pyRepr v ++ ", " ++ pyReprElems rest

/-- Comma-separated `repr`s of dict entries. -/
def pyReprFields : List (String × JValue) → String
  | [] => ""
  | [(k, v)] => squote ++ k ++ squote ++ ": " ++ pyRepr v
  | (k, v) :: rest => squote ++ k ++ squote ++ ": " ++ pyRepr v ++ ", " ++ pyReprFields rest
end

/-- Python `str(x)` for a JSON value: identity on strings, `repr`-like
otherwise. -/
def pyStr : JValue → String
  | .str s => s
  | v => pyRepr v

/-- The canonical event model (`class EconomicEvent(BaseModel)`). -/
structure EconomicEvent where
  time : String
  currency : String
  impact : String
  event : String
  actual : Option String := none
  forecast : Option String := none
  previous : Option String := none
deriving DecidableEq, Repr

/-- `datetime.fromtimestamp(x)` accepts numbers (Python `bool` is an `int`
subclass, `True` being `1`); any other type raises `TypeError`, which the
per-record handler turns into a skip. -/
def asTimestamp : JValue → Option Int
  | .num n => some n
  | .bool b => some (if b then 1 else 0)
  | _ => none

/-- Pydantic validation of a required `str` field: accepts exactly strings;
any other value raises a `ValidationError`, which the per-record handler
turns into a skip. -/
def asPyStr : JValue → Option String
  | .str s => some s
  | _ => none

/-- Pydantic validation of an `Optional[str]` field: accepts strings and
`None`; any other value raises, which the per-record handler turns into a
skip. -/
def asOptPyStr : JValue → Option (Option String)
  | .str s => some (some s)
  | .null => some none
  | _ => none

/-- One decimal digit as a character. -/
def digitChar (d : Nat) : Char := Char.ofNat (48 + d)

/-- A zero-padded 24-hour clock string `HH:MM`. -/
def hhmm (h m : Nat) : String :=
  String.mk [digitChar (h / 10), digitChar (h % 10), ':', digitChar (m / 10), digitChar (m % 10)]

/-- `strftime("%H:%M")` applied to `datetime.fromtimestamp(ts)` under a local
timezone at fixed offset `tzOffset` seconds from UTC. -/
def formatHM (tzOffset ts : Int) : String :=
  let total := ts + tzOffset
  hhmm ((total / 3600) % 24).toNat ((total / 60) % 60).toNat

/-- The body of the per-record `try`/`except` block of
`fetch_economic_calendar` (src/main.py lines 76-102): builds zero or one
`EconomicEvent` from one element of the response list.  `none` models a
raised exception, which the `except` clause turns into skip-and-continue. -/
def normalizeRecord (tzOffset : Int) (event_data : JValue) : Option EconomicEvent :=
  match event_data with
  | .obj fields =>
    let importance := dictGet fields "importance" (.str "low")
    let impact_level : String :=
      match importance with
      | .str s => if s = "high" ∨ s = "medium" ∨ s = "low" then s else "low"
      | _ => "low"
    do
      let ts ← asTimestamp (dictGet fields "date" (.num 0))
      let time_str := formatHM tzOffset ts
      let currency ← asPyStr (dictGet fields "country" (.str ""))
      let title ← asPyStr (dictGet fields "title" (.str ""))
      let actual ← asOptPyStr (dictGet fields "actual" (.str ""))
      let forecast ← asOptPyStr (dictGet fields "forecast" (.str ""))
      let previous ← asOptPyStr (dictGet fields "previous" (.str ""))
      some { time := time_str, currency := currency, impact := impact_level,
             event := title, actual := actual, forecast := forecast,
             previous := previous }
  | _ =>
    some { time := formatHM tzOffset 0, currency := "", impact := "low",
           event := pyStr event_data, actual := some "", forecast := some "",
           previous := some "" }

/-- Python string comparison `a < b`: lexicographic on code points. -/
def charListLt : List Char → List Char → Bool
  | [], [] => false
  | [], _ :: _ => true
  | _ :: _, [] => false
  | c :: cs, d :: ds => if c < d then true else if d < c then false else charListLt cs ds

/-- Python `a < b` on strings. -/
def pyStrLt (a b : String) : Bool := charListLt a.data b.data

/-- Stable insertion of an event into a list sorted ascending by `time`:
`x` goes before the first element whose `time` is not below `x`'s, so among
equal keys earlier elements stay first. -/
def insertByTime (x : EconomicEvent) : List EconomicEvent → List EconomicEvent
  | [] => [x]
  | y :: ys => if pyStrLt y.time x.time then y :: insertByTime x ys else x :: y :: ys

/-- `events.sort(key=lambda x: x.time)`: Python's `list.sort` is a stable
ascending sort on the key, and every stable ascending sort of the same key
computes the same list; it is modelled by a stable insertion sort. -/
def sortByTime : List EconomicEvent → List EconomicEvent
  | [] => []
  | x :: xs => insertByTime x (sortByTime xs)

/-- The pure part of `fetch_economic_calendar` applied to a decoded JSON
body: the `if isinstance(data, list)` loop followed by
`events.sort(key=lambda x: x.time)`. -/
def processCalendarBody (tzOffset : Int) (data : JValue) : List EconomicEvent :=
  let events := match data with
    | .arr elems => elems.filterMap (normalizeRecord tzOffset)
    | _ => []
  sortByTime events

/-- Outcome of the HTTP GET against TradingView: a transport fault, or a
response with a status code and a body (`none` models a body that is not
valid JSON, i.e. `response.json()` raises `JSONDecodeError`). -/
inductive UpstreamResponse where
  | transportError (msg : String)
  | response (status : Nat) (body : Option JValue)

/-- `response.is_success` as used by `httpx.Response.raise_for_status`. -/
def is2xx (status : Nat) : Bool := 200 ≤ status && status < 300

/-- `fetch_economic_calendar` (src/main.py lines 35-111) as a function of the
upstream HTTP outcome.  Every exception inside the outer `try` — transport
fault, `raise_for_status`, or the JSON-decode `HTTPException` — is caught by
the outer `except` and re-raised as `HTTPException(500, "Error fetching
calendar data: " + str(e))`; `.error` carries that detail string (the
underlying `str(e)` texts of the HTTP libraries are abstracted). -/
def fetch_economic_calendar (tzOffset : Int) (resp : UpstreamResponse) :
    Except String (List EconomicEvent) :=
  match resp with
  | .transportError msg =>
    .error ("Error fetching calendar data: " ++ msg)
  | .response status body =>
    if !is2xx status then
      .error ("Error fetching calendar data: status " ++ toString status)
    else
      match body with
      | none => .error ("Error fetching calendar data: 500: Invalid response from TradingView")
      | some data => .ok (processCalendarBody tzOffset data)

/-- The three-entry impact-to-emoji dict lookup with default `⚪`
(src/main.py lines 122-126). -/
def impactEmoji (impact : String) : String :=
  if impact = "high" then "🔴"
  else if impact = "medium" then "🟡"
  else if impact = "low" then "⚪"
  else "⚪"

/-- Python truthiness of an `Optional[str]` value: `None` and `""` are
falsy. -/
def strOptTruthy : Option String → Bool
  | none => false
  | some s => !s.isEmpty

/-- The per-event block appended to the message by the loop of
`format_telegram_message` (src/main.py lines 120-140). -/
def formatEventBlock (e : EconomicEvent) : String :=
  let line := e.time ++ " | " ++ e.currency ++ " | " ++ impactEmoji e.impact
    ++ " | " ++ e.event ++ "\n"
  let details :=
    if strOptTruthy e.actual || strOptTruthy e.forecast || strOptTruthy e.previous then
      let ds := (if strOptTruthy e.actual then ["A: " ++ e.actual.getD ""] else [])
        ++ (if strOptTruthy e.forecast then ["F: " ++ e.forecast.getD ""] else [])
        ++ (if strOptTruthy e.previous then ["P: " ++ e.previous.getD ""] else [])
      "(" ++ String.intercalate " | " ds ++ ")\n"
    else ""
  line ++ details ++ "\n"

/-- `format_telegram_message` (src/main.py lines 113-142). -/
def format_telegram_message (events : List EconomicEvent) : String :=
  if events.isEmpty then "No economic events scheduled for today."
  else "📅 Economic Calendar\n\n" ++ String.join (events.map formatEventBlock)

/-- Outcome of the outbound `client.post` to the telegram service: a
transport fault (raises, caught by the endpoint handler) or an HTTP response
with some status code (never raises: the code calls no `raise_for_status`
on it). -/
inductive PostOutcome where
  | transportError (msg : String)
  | response (status : Nat)

/-- What the `/calendar` endpoint returns: the success JSON body or an
HTTP 500 with a detail message. -/
inductive CalendarResult where
  | success (data : String)
  | error (statusCode : Nat) (detail : String)
deriving DecidableEq, Repr

/-- Externally observable outcome of one `get_calendar` run: the response to
the caller, and the message carried by the outbound POST when one was
issued (`none` when no POST was issued). -/
structure RunTrace where
  result : CalendarResult
  posted : Option String
deriving DecidableEq, Repr

/-- Truthiness of `TELEGRAM_SERVICE_URL` (`os.getenv` yields `None` when the
variable is unset; the empty string is falsy too). -/
def isTruthy : Option String → Bool
  | none => false
  | some s => !s.isEmpty

/-- `get_calendar` (src/main.py lines 144-163) as a function of the upstream
outcome, the configured sink URL and the outcome of the outbound POST.  An
exception from the fetch or from `client.post` is caught and re-raised as
`HTTPException(500, str(e))`; the POST's response status is never
inspected. -/
def get_calendar (tzOffset : Int) (upstream : UpstreamResponse)
    (telegram_service_url : Option String) (post : PostOutcome) : RunTrace :=
  match fetch_economic_calendar tzOffset upstream with
  | .error detail => { result := .error 500 ("500: " ++ detail), posted := none }
  | .ok events =>
    let message := format_telegram_message events
    if isTruthy telegram_service_url then
      match post with
      | .transportError msg => { result := .error 500 msg, posted := some message }
      | .response _status => { result := .success message, posted := some message }
    else
      { result := .success message, posted := none }

/-- The impact mapping as the specification states it (claim C6): a severity
equal to one of the three strings `high`, `medium`, `low` is kept; any
other (unrecognized, missing, or numeric) severity yields `low`. -/
def impact_per_spec (r : JValue) : String :=
  match r with
  | .obj fields =>
    match lookupField fields "importance" with
    | some (.str s) => if s = "high" ∨ s = "medium" ∨ s = "low" then s else "low"
    | some _ => "low"
    | none => "low"
  | _ => "low"

/-!  ### Helper lemmas  -/

theorem digitChar_lt_iff : ∀ a, a < 10 → ∀ b, b < 10 → (digitChar a < digitChar b ↔ a < b) := by
  decide

theorem digitChar_inj : ∀ a, a < 10 → ∀ b, b < 10 → (digitChar a = digitChar b ↔ a = b) := by
  decide

theorem lex_cons_cases {α : Type} {r : α → α → Prop} {a b : α} {l₁ l₂ : List α}
    (h : List.Lex r (a :: l₁) (b :: l₂)) : r a b ∨ (a = b ∧ List.Lex r l₁ l₂) := by
  cases h with
  | cons h => exact .inr ⟨rfl, h⟩
  | rel h => exact .inl h

theorem lex_digits5 {a1 a2 a3 a4 b1 b2 b3 b4 : Nat}
    (ha1 : a1 < 10) (ha2 : a2 < 10) (ha3 : a3 < 10) (ha4 : a4 < 10)
    (hb1 : b1 < 10) (hb2 : b2 < 10) (hb3 : b3 < 10) (hb4 : b4 < 10) :
    List.Lex (· < ·) [digitChar a1, digitChar a2, ':', digitChar a3, digitChar a4]
      [digitChar b1, digitChar b2, ':', digitChar b3, digitChar b4] ↔
    a1 * 1000 + a2 * 100 + a3 * 10 + a4 < b1 * 1000 + b2 * 100 + b3 * 10 + b4 := by
  constructor
  · intro hl
    rcases lex_cons_cases hl with h1 | ⟨e1, hl⟩
    · have := (digitChar_lt_iff _ ha1 _ hb1).mp h1; omega
    · have e1' : a1 = b1 := (digitChar_inj _ ha1 _ hb1).mp e1
      rcases lex_cons_cases hl with h2 | ⟨e2, hl⟩
      · have := (digitChar_lt_iff _ ha2 _ hb2).mp h2; omega
      · have e2' : a2 = b2 := (digitChar_inj _ ha2 _ hb2).mp e2
        rcases lex_cons_cases hl with h3 | ⟨e3, hl⟩
        · exact absurd h3 (lt_irrefl ':')
        · rcases lex_cons_cases hl with h4 | ⟨e4, hl⟩
          · have := (digitChar_lt_iff _ ha3 _ hb3).mp h4; omega
          · have e4' : a3 = b3 := (digitChar_inj _ ha3 _ hb3).mp e4
            rcases lex_cons_cases hl with h5 | ⟨e5, hl⟩
            · have := (digitChar_lt_iff _ ha4 _ hb4).mp h5; omega
            · exact absurd hl (List.Lex.not_nil_right _ _)
  · intro hn
    rcases Nat.lt_trichotomy a1 b1 with h | h | h
    · exact List.Lex.rel ((digitChar_lt_iff _ ha1 _ hb1).mpr h)
    · subst h
      rcases Nat.lt_trichotomy a2 b2 with h2 | h2 | h2
      · exact List.Lex.cons (List.Lex.rel ((digitChar_lt_iff _ ha2 _ hb2).mpr h2))
      · subst h2
        rcases Nat.lt_trichotomy a3 b3 with h3 | h3 | h3
        · exact List.Lex.cons (List.Lex.cons (List.Lex.cons
            (List.Lex.rel ((digitChar_lt_iff _ ha3 _ hb3).mpr h3))))
        · subst h3
          have h4 : a4 < b4 := by omega
          exact List.Lex.cons (List.Lex.cons (List.Lex.cons (List.Lex.cons
            (List.Lex.rel ((digitChar_lt_iff _ ha4 _ hb4).mpr h4)))))
        · omega
      · omega
    · omega

theorem hhmm_lt_iff {h₁ m₁ h₂ m₂ : Nat} (hh₁ : h₁ < 24) (hm₁ : m₁ < 60)
    (hh₂ : h₂ < 24) (hm₂ : m₂ < 60) :
    (hhmm h₁ m₁ < hhmm h₂ m₂) ↔ h₁ * 60 + m₁ < h₂ * 60 + m₂ := by
  rw [String.lt_iff_toList_lt]
  have e₁ : (hhmm h₁ m₁).toList =
      [digitChar (h₁ / 10), digitChar (h₁ % 10), ':', digitChar (m₁ / 10), digitChar (m₁ % 10)] :=
    rfl
  have e₂ : (hhmm h₂ m₂).toList =
      [digitChar (h₂ / 10), digitChar (h₂ % 10), ':', digitChar (m₂ / 10), digitChar (m₂ % 10)] :=
    rfl
  rw [e₁, e₂]
  have hd := @lex_digits5 (h₁ / 10) (h₁ % 10) (m₁ / 10) (m₁ % 10)
    (h₂ / 10) (h₂ % 10) (m₂ / 10) (m₂ % 10)
    (by omega) (by omega) (by omega) (by omega) (by omega) (by omega) (by omega) (by omega)
  constructor
  · intro hl
    have := hd.mp hl
    omega
  · intro hn
    exact hd.mpr (by omega)

theorem hhmm_le_iff {h₁ m₁ h₂ m₂ : Nat} (hh₁ : h₁ < 24) (hm₁ : m₁ < 60)
    (hh₂ : h₂ < 24) (hm₂ : m₂ < 60) :
    (hhmm h₁ m₁ ≤ hhmm h₂ m₂) ↔ h₁ * 60 + m₁ ≤ h₂ * 60 + m₂ := by
  rw [← not_lt, ← Nat.not_lt]
  exact not_congr (hhmm_lt_iff hh₂ hm₂ hh₁ hm₁)

theorem impact_per_spec_mem (r : JValue) :
    impact_per_spec r = "low" ∨ impact_per_spec r = "medium" ∨ impact_per_spec r = "high" := by
  unfold impact_per_spec
  cases r <;> try simp
  case obj fields =>
    cases hv : lookupField fields "importance" with
    | none => simp
    | some v =>
      cases v <;> simp
      case str s =>
        by_cases hs : s = "high" ∨ s = "medium" ∨ s = "low"
        · rw [if_pos hs]; tauto
        · rw [if_neg hs]; tauto

theorem normalizeRecord_obj_inv {tz : Int} {fields : List (String × JValue)} {e : EconomicEvent}
    (h : normalizeRecord tz (.obj fields) = some e) :
    ∃ ts c t a f p,
      asTimestamp (dictGet fields "date" (.num 0)) = some ts ∧
      asPyStr (dictGet fields "country" (.str "")) = some c ∧
      asPyStr (dictGet fields "title" (.str "")) = some t ∧
      asOptPyStr (dictGet fields "actual" (.str "")) = some a ∧
      asOptPyStr (dictGet fields "forecast" (.str "")) = some f ∧
      asOptPyStr (dictGet fields "previous" (.str "")) = some p ∧
      e = { time := formatHM tz ts, currency := c, impact := impact_per_spec (.obj fields),
            event := t, actual := a, forecast := f, previous := p } := by
  cases hts : asTimestamp (dictGet fields "date" (.num 0)) with
  | none => simp [normalizeRecord, hts] at h
  | some ts =>
  cases hc : asPyStr (dictGet fields "country" (.str "")) with
  | none => simp [normalizeRecord, hts, hc] at h
  | some c =>
  cases ht : asPyStr (dictGet fields "title" (.str "")) with
  | none => simp [normalizeRecord, hts, hc, ht] at h
  | some t =>
  cases ha : asOptPyStr (dictGet fields "actual" (.str "")) with
  | none => simp [normalizeRecord, hts, hc, ht, ha] at h
  | some a =>
  cases hf : asOptPyStr (dictGet fields "forecast" (.str "")) with
  | none => simp [normalizeRecord, hts, hc, ht, ha, hf] at h
  | some f =>
  cases hp : asOptPyStr (dictGet fields "previous" (.str "")) with
  | none => simp [normalizeRecord, hts, hc, ht, ha, hf, hp] at h
  | some p =>
    refine ⟨ts, c, t, a, f, p, rfl, rfl, rfl, rfl, rfl, rfl, ?_⟩
    simp only [dictGet] at hts hc ht ha hf hp
    cases hv : lookupField fields "importance" with
    | none =>
      simp [normalizeRecord, dictGet, hv, impact_per_spec, hts, hc, ht, ha, hf, hp] at h ⊢
      exact h.symm
    | some v =>
      cases v <;>
        simp [normalizeRecord, dictGet, hv, impact_per_spec, hts, hc, ht, ha, hf, hp] at h ⊢ <;>
        exact h.symm

theorem normalizeRecord_not_obj {tz : Int} {v : JValue} (hv : v.isObj = false) :
    normalizeRecord tz v =
      some { time := formatHM tz 0, currency := "", impact := "low", event := pyStr v,
             actual := some "", forecast := some "", previous := some "" } := by
  cases v <;> first
    | rfl
    | simp [JValue.isObj] at hv

theorem formatHM_shape (tz ts : Int) :
    ∃ h m, h < 24 ∧ m < 60 ∧ formatHM tz ts = hhmm h m := by
  refine ⟨(((ts + tz) / 3600) % 24).toNat, (((ts + tz) / 60) % 60).toNat, ?_, ?_, rfl⟩
  · omega
  · omega

theorem normalizeRecord_time {tz : Int} {r : JValue} {e : EconomicEvent}
    (h : normalizeRecord tz r = some e) : ∃ ts : Int, e.time = formatHM tz ts := by
  cases r with
  | obj fields =>
    obtain ⟨ts, c, t, a, f, p, _, _, _, _, _, _, he⟩ := normalizeRecord_obj_inv h
    exact ⟨ts, by rw [he]⟩
  | null =>
    rw [@normalizeRecord_not_obj tz (JValue.null) rfl] at h
    exact ⟨0, by rw [← Option.some.inj h]⟩
  | bool b =>
    rw [@normalizeRecord_not_obj tz (JValue.bool b) rfl] at h
    exact ⟨0, by rw [← Option.some.inj h]⟩
  | num n =>
    rw [@normalizeRecord_not_obj tz (JValue.num n) rfl] at h
    exact ⟨0, by rw [← Option.some.inj h]⟩
  | str s =>
    rw [@normalizeRecord_not_obj tz (JValue.str s) rfl] at h
    exact ⟨0, by rw [← Option.some.inj h]⟩
  | arr elems =>
    rw [@normalizeRecord_not_obj tz (JValue.arr elems) rfl] at h
    exact ⟨0, by rw [← Option.some.inj h]⟩

theorem format_nonempty (events : List EconomicEvent) : format_telegram_message events ≠ "" := by
  cases events with
  | nil => simp [format_telegram_message]
  | cons e es =>
    intro hc
    have hlen := congrArg String.length hc
    simp only [format_telegram_message, List.isEmpty_cons, Bool.false_eq_true, if_false,
      String.length_append] at hlen
    have h21 : ("📅 Economic Calendar\n\n" : String).length = 21 := rfl
    have h0 : ("" : String).length = 0 := rfl
    omega

theorem charListLt_iff_lex : ∀ a b : List Char, charListLt a b = true ↔ List.Lex (· < ·) a b := by
  intro a
  induction a with
  | nil =>
    intro b
    cases b with
    | nil =>
      rw [charListLt]
      exact iff_of_false (by simp) (List.Lex.not_nil_right _ _)
    | cons d ds =>
      rw [charListLt]
      exact iff_of_true rfl List.Lex.nil
  | cons c cs ih =>
    intro b
    cases b with
    | nil =>
      rw [charListLt]
      exact iff_of_false (by simp) (List.Lex.not_nil_right _ _)
    | cons d ds =>
      rw [charListLt]
      rcases lt_trichotomy c d with hcd | hcd | hcd
      · rw [if_pos hcd]
        exact iff_of_true rfl (List.Lex.rel hcd)
      · subst hcd
        rw [if_neg (lt_irrefl c), if_neg (lt_irrefl c)]
        exact (ih ds).trans List.Lex.cons_iff.symm
      · rw [if_neg (asymm hcd), if_pos hcd]
        refine iff_of_false (by simp) ?_
        intro hl
        rcases lex_cons_cases hl with h | ⟨he, _⟩
        · exact absurd h (asymm hcd)
        · exact absurd hcd (he ▸ lt_irrefl c)

theorem pyStrLt_iff (a b : String) : pyStrLt a b = true ↔ a < b := by
  rw [String.lt_iff_toList_lt]
  exact charListLt_iff_lex a.data b.data

theorem pyStrLt_eq_false_iff (a b : String) : pyStrLt a b = false ↔ b ≤ a := by
  rw [← Bool.not_eq_true, pyStrLt_iff]
  exact not_lt

theorem insertByTime_perm (x : EconomicEvent) (l : List EconomicEvent) :
    List.Perm (insertByTime x l) (x :: l) := by
  induction l with
  | nil => exact List.Perm.refl _
  | cons y ys ih =>
    by_cases hxy : pyStrLt y.time x.time = true
    · rw [insertByTime, if_pos hxy]
      exact (ih.cons y).trans (List.Perm.swap x y ys)
    · rw [insertByTime, if_neg hxy]

theorem sortByTime_perm (l : List EconomicEvent) : List.Perm (sortByTime l) l := by
  induction l with
  | nil => exact List.Perm.refl _
  | cons x xs ih => exact (insertByTime_perm x (sortByTime xs)).trans (ih.cons x)

theorem insertByTime_pairwise {x : EconomicEvent} {l : List EconomicEvent}
    (h : l.Pairwise (fun a b => a.time ≤ b.time)) :
    (insertByTime x l).Pairwise (fun a b => a.time ≤ b.time) := by
  induction l with
  | nil => simp [insertByTime]
  | cons y ys ih =>
    rw [List.pairwise_cons] at h
    obtain ⟨hy, hys⟩ := h
    by_cases hxy : pyStrLt y.time x.time = true
    · rw [insertByTime, if_pos hxy]
      rw [List.pairwise_cons]
      refine ⟨?_, ih hys⟩
      intro b hb
      rcases List.mem_cons.mp ((insertByTime_perm x ys).mem_iff.mp hb) with rfl | hb'
      · exact le_of_lt ((pyStrLt_iff _ _).mp hxy)
      · exact hy b hb'
    · rw [insertByTime, if_neg hxy]
      have hle : x.time ≤ y.time := (pyStrLt_eq_false_iff _ _).mp (Bool.eq_false_iff.mpr hxy)
      rw [List.pairwise_cons]
      refine ⟨?_, List.Pairwise.cons hy hys⟩
      intro b hb
      rcases List.mem_cons.mp hb with rfl | hb'
      · exact hle
      · exact le_trans hle (hy b hb')

theorem sortByTime_pairwise (l : List EconomicEvent) :
    (sortByTime l).Pairwise (fun a b => a.time ≤ b.time) := by
  induction l with
  | nil => exact List.Pairwise.nil
  | cons x xs ih => exact insertByTime_pairwise ih

theorem processCalendarBody_pairwise (tz : Int) (data : JValue) :
    (processCalendarBody tz data).Pairwise (fun a b => a.time ≤ b.time) :=
  sortByTime_pairwise _

theorem processCalendarBody_perm (tz : Int) (elems : List JValue) :
    List.Perm (processCalendarBody tz (.arr elems)) (elems.filterMap (normalizeRecord tz)) :=
  sortByTime_perm _

theorem mem_processCalendarBody {tz : Int} {data : JValue} {e : EconomicEvent}
    (he : e ∈ processCalendarBody tz data) :
    ∃ r, normalizeRecord tz r = some e := by
  unfold processCalendarBody at he
  cases data with
  | arr elems =>
    have hm := (sortByTime_perm _).mem_iff.mp he
    rw [List.mem_filterMap] at hm
    obtain ⟨r, _, hr⟩ := hm
    exact ⟨r, hr⟩
  | null => simp [sortByTime] at he
  | bool b => simp [sortByTime] at he
  | num n => simp [sortByTime] at he
  | str s => simp [sortByTime] at he
  | obj fields => simp [sortByTime] at he

/-!  ### Claims  -/

/-- C1: the claim states that when the sink is configured, a non-2xx
response to the outbound POST makes the `/calendar` run report failure.
The code never inspects the POST response (`client.post` without
`raise_for_status`), so the endpoint returns success: at a concrete input
with POST status 500, `get_calendar` returns a success result. -/
theorem C1_counterexample :
    is2xx 500 = false ∧
      get_calendar 0 (.response 200 (some (.arr []))) (some "http://sink") (.response 500) =
        { result := CalendarResult.success "No economic events scheduled for today.",
          posted := some "No economic events scheduled for today." } :=
  ⟨rfl, rfl⟩

/-- C1 (amended): when the sink is configured and the fetch succeeds, the
status of the POST response is ignored entirely: for every status value the
run returns success carrying the formatted message; only a POST transport
fault is reported as an error. -/
theorem C1_post_response_status_ignored (tz : Int) (upstream : UpstreamResponse)
    (url : Option String) (events : List EconomicEvent) (status : Nat)
    (hfetch : fetch_economic_calendar tz upstream = .ok events)
    (hurl : isTruthy url = true) :
    get_calendar tz upstream url (.response status) =
      { result := CalendarResult.success (format_telegram_message events),
        posted := some (format_telegram_message events) } := by
  simp [get_calendar, hfetch, hurl]

/-- C1 witness: the amended theorem applied at POST status 204. -/
theorem C1_post_response_status_ignored_witness :
    get_calendar 0 (.response 200 (some (.arr []))) (some "http://sink") (.response 204) =
      { result := CalendarResult.success (format_telegram_message []),
        posted := some (format_telegram_message []) } :=
  C1_post_response_status_ignored 0 (.response 200 (some (.arr []))) (some "http://sink") [] 204
    rfl rfl

/-- C2: the claim states a non-dict element of a list body is skipped and
contributes no event. In the code the `isinstance` fallbacks build an event
from a non-dict element instead: the body `[42]` yields one event titled
"42", not zero events. -/
theorem C2_counterexample :
    processCalendarBody 0 (.arr [.num 42]) =
      [{ time := "00:00", currency := "", impact := "low", event := "42",
         actual := some "", forecast := some "", previous := some "" }] ∧
    processCalendarBody 0 (.arr [.num 42]) ≠ [] :=
  ⟨rfl, by decide⟩

/-- C2 (amended): a non-dict element is not skipped: it yields an event
titled `str(element)` with epoch-zero time, empty currency, low impact and
empty-string detail fields; and the returned batch is a permutation of the
per-element normalization results, so the remaining elements are still
processed. -/
theorem C2_nondict_still_normalized (tz : Int) (v : JValue) (elems : List JValue)
    (hv : v.isObj = false) :
    normalizeRecord tz v =
      some { time := formatHM tz 0, currency := "", impact := "low", event := pyStr v,
             actual := some "", forecast := some "", previous := some "" } ∧
    List.Perm (processCalendarBody tz (.arr elems)) (elems.filterMap (normalizeRecord tz)) :=
  ⟨normalizeRecord_not_obj hv, processCalendarBody_perm tz elems⟩

/-- C2 witness: the amended theorem applied to the element `42` and the
one-element batch `[42]`. -/
theorem C2_nondict_still_normalized_witness :
    normalizeRecord 0 (.num 42) =
      some { time := formatHM 0 0, currency := "", impact := "low", event := pyStr (.num 42),
             actual := some "", forecast := some "", previous := some "" } ∧
    List.Perm (processCalendarBody 0 (.arr [.num 42]))
      ([JValue.num 42].filterMap (normalizeRecord 0)) :=
  C2_nondict_still_normalized 0 (.num 42) [.num 42] rfl

/-- C3: the claim states every returned event has a non-empty title and
title-less records yield no event. The code substitutes the empty string
for a missing title and keeps the event: the body `[{}]` yields exactly one
event whose `event` field is `""`. -/
theorem C3_counterexample :
    (processCalendarBody 0 (.arr [.obj []])).map EconomicEvent.event = [""] ∧
    processCalendarBody 0 (.arr [.obj []]) ≠ [] :=
  ⟨rfl, by decide⟩

/-- C3 (amended): no title validity check exists: a record whose `title`
key is absent normalizes (when the other fields validate) to an event whose
`event` field is the empty string, and that event is kept. -/
theorem C3_missing_title_empty (tz : Int) (fields : List (String × JValue)) (e : EconomicEvent)
    (hti : lookupField fields "title" = none)
    (h : normalizeRecord tz (.obj fields) = some e) :
    e.event = "" := by
  obtain ⟨ts, c, t, a, f, p, hts, hc, htt, ha, hf, hp, he⟩ := normalizeRecord_obj_inv h
  simp only [dictGet, hti, Option.getD_none, asPyStr, Option.some.injEq] at htt
  rw [he]
  exact htt.symm

/-- C3 witness: the amended theorem applied to the empty record. -/
theorem C3_missing_title_empty_witness :
    lookupField [] "title" = none ∧
    ({ time := "00:00", currency := "", impact := "low", event := "",
       actual := some "", forecast := some "", previous := some "" } : EconomicEvent).event = "" :=
  ⟨rfl, C3_missing_title_empty 0 [] _ rfl rfl⟩

/-- C4: the claim states a keyed envelope body with a `data` list is
normalized like a bare list. The code checks `isinstance(data, list)` only:
an envelope wrapping one record yields no events, while the bare list of
the same record yields one. -/
theorem C4_counterexample :
    processCalendarBody 0 (.obj [("data", .arr [.obj []])]) = [] ∧
    processCalendarBody 0 (.arr [.obj []]) ≠ [] :=
  ⟨rfl, by decide⟩

/-- C4 (amended): only a bare-list body yields events: every non-list body,
a keyed envelope included, yields the empty event list. -/
theorem C4_nonlist_empty (tz : Int) (data : JValue) (hd : data.isArr = false) :
    processCalendarBody tz data = [] := by
  cases data <;> first
    | rfl
    | simp [JValue.isArr] at hd

/-- C4 witness: the amended theorem applied to an envelope body. -/
theorem C4_nonlist_empty_witness :
    (JValue.obj [("data", JValue.arr [])]).isArr = false ∧
    processCalendarBody 0 (.obj [("data", JValue.arr [])]) = [] :=
  ⟨rfl, C4_nonlist_empty 0 (.obj [("data", JValue.arr [])]) rfl⟩

/-- C5: the claim states that an absent actual/forecast/previous field is
recorded as an unset optional distinguishable from any published value. The
code substitutes the empty string: normalizing the empty record yields
`actual = some ""`, not `none`. -/
theorem C5_counterexample :
    (normalizeRecord 0 (.obj [])).map (fun e => (e.actual, e.forecast, e.previous)) =
      some (some "", some "", some "") ∧
    (some "" : Option String) ≠ none :=
  ⟨rfl, by decide⟩

/-- C5 (amended): a field among actual/forecast/previous that is absent
from the record is substituted with the empty string (`some ""`), the same
falsy sentinel the formatter later drops; it is not an unset optional. -/
theorem C5_absent_fields_empty_string (tz : Int) (fields : List (String × JValue))
    (e : EconomicEvent) (h : normalizeRecord tz (.obj fields) = some e) :
    (lookupField fields "actual" = none → e.actual = some "") ∧
    (lookupField fields "forecast" = none → e.forecast = some "") ∧
    (lookupField fields "previous" = none → e.previous = some "") := by
  obtain ⟨ts, c, t, a, f, p, hts, hc, htt, ha, hf, hp, he⟩ := normalizeRecord_obj_inv h
  refine ⟨fun hn => ?_, fun hn => ?_, fun hn => ?_⟩
  · simp only [dictGet, hn, Option.getD_none, asOptPyStr, Option.some.injEq] at ha
    rw [he]
    exact ha.symm
  · simp only [dictGet, hn, Option.getD_none, asOptPyStr, Option.some.injEq] at hf
    rw [he]
    exact hf.symm
  · simp only [dictGet, hn, Option.getD_none, asOptPyStr, Option.some.injEq] at hp
    rw [he]
    exact hp.symm

/-- C5 witness: the amended theorem applied to the empty record. -/
theorem C5_absent_fields_empty_string_witness :
    lookupField [] "actual" = none ∧
    ({ time := "00:00", currency := "", impact := "low", event := "",
       actual := some "", forecast := some "", previous := some "" } : EconomicEvent).actual =
      some "" :=
  ⟨rfl, (C5_absent_fields_empty_string 0 [] _ rfl).1 rfl⟩

/-- C6: every normalized event's impact equals the spec-stated mapping
`impact_per_spec` (keep a severity equal to one of the three strings
`high`, `medium`, `low`; anything else — unrecognized, missing, numeric, or
a non-dict record — yields `low`), and it is always one of the three
values. -/
theorem C6_impact_mapping (tz : Int) (r : JValue) (e : EconomicEvent)
    (h : normalizeRecord tz r = some e) :
    e.impact = impact_per_spec r ∧
      (e.impact = "low" ∨ e.impact = "medium" ∨ e.impact = "high") := by
  have himp : e.impact = impact_per_spec r := by
    cases r with
    | obj fields =>
      obtain ⟨ts, c, t, a, f, p, hts, hc, htt, ha, hf, hp, he⟩ := normalizeRecord_obj_inv h
      rw [he]
    | null =>
      rw [@normalizeRecord_not_obj tz (JValue.null) rfl] at h
      rw [← Option.some.inj h]
      rfl
    | bool b =>
      rw [@normalizeRecord_not_obj tz (JValue.bool b) rfl] at h
      rw [← Option.some.inj h]
      rfl
    | num n =>
      rw [@normalizeRecord_not_obj tz (JValue.num n) rfl] at h
      rw [← Option.some.inj h]
      rfl
    | str s =>
      rw [@normalizeRecord_not_obj tz (JValue.str s) rfl] at h
      rw [← Option.some.inj h]
      rfl
    | arr elems =>
      rw [@normalizeRecord_not_obj tz (JValue.arr elems) rfl] at h
      rw [← Option.some.inj h]
      rfl
  refine ⟨himp, ?_⟩
  rw [himp]
  exact impact_per_spec_mem r

/-- C6 witness: the theorem applied to a record carrying importance
`high`. -/
theorem C6_impact_mapping_witness :
    ("high" : String) = impact_per_spec (.obj [("importance", JValue.str "high")]) ∧
      (("high" : String) = "low" ∨ ("high" : String) = "medium" ∨ ("high" : String) = "high") :=
  C6_impact_mapping 0 (.obj [("importance", JValue.str "high")]) _ rfl

/-- C7: the returned event list is sorted ascending by the `time` string
(every adjacent pair in lexicographic string order), and the three-record
example with times 16:00, 10:00 and 14:30 comes out ordered 10:00, 14:30,
16:00. -/
theorem C7_sorted_by_time :
    (∀ (tz : Int) (data : JValue),
        (processCalendarBody tz data).Pairwise (fun a b => a.time ≤ b.time)) ∧
      (processCalendarBody 0 (.arr
          [.obj [("date", .num 57600), ("title", .str "A")],
           .obj [("date", .num 36000), ("title", .str "B")],
           .obj [("date", .num 52200), ("title", .str "C")]])).map EconomicEvent.time =
        ["10:00", "14:30", "16:00"] :=
  ⟨processCalendarBody_pairwise, rfl⟩

/-- C8: formatting the empty event list returns the fixed non-empty
placeholder string, and the formatter never returns the empty string. -/
theorem C8_empty_placeholder :
    format_telegram_message [] = "No economic events scheduled for today." ∧
      ∀ events : List EconomicEvent, format_telegram_message events ≠ "" :=
  ⟨rfl, format_nonempty⟩

/-- C9: with no sink configured (unset URL, or the empty string, both
falsy), a run whose fetch succeeds issues no outbound POST and returns
success carrying the formatted output. -/
theorem C9_no_sink_no_post (tz : Int) (upstream : UpstreamResponse) (url : Option String)
    (post : PostOutcome) (events : List EconomicEvent)
    (hfetch : fetch_economic_calendar tz upstream = .ok events)
    (hurl : isTruthy url = false) :
    get_calendar tz upstream url post =
      { result := CalendarResult.success (format_telegram_message events), posted := none } := by
  simp [get_calendar, hfetch, hurl]

/-- C9 witness: the theorem applied at an unset URL. -/
theorem C9_no_sink_no_post_witness :
    get_calendar 0 (.response 200 (some (.arr []))) none (.response 200) =
      { result := CalendarResult.success (format_telegram_message []), posted := none } :=
  C9_no_sink_no_post 0 (.response 200 (some (.arr []))) none (.response 200) [] rfl rfl

/-- C10: every event produced by the fetch has a `time` of the zero-padded
24-hour form `HH:MM`; a non-dict record, and a record without a `date` key,
are timestamped at epoch 0; and on such strings lexicographic order
coincides with chronological time-of-day order. -/
theorem C10_time_wellformed :
    (∀ (tz : Int) (data : JValue) (e : EconomicEvent), e ∈ processCalendarBody tz data →
        ∃ h m, h < 24 ∧ m < 60 ∧ e.time = hhmm h m) ∧
      (∀ (tz : Int) (v : JValue), v.isObj = false →
        (normalizeRecord tz v).map EconomicEvent.time = some (formatHM tz 0)) ∧
      (∀ (tz : Int) (fields : List (String × JValue)) (e : EconomicEvent),
        lookupField fields "date" = none → normalizeRecord tz (.obj fields) = some e →
        e.time = formatHM tz 0) ∧
      (∀ h₁ m₁ h₂ m₂ : Nat, h₁ < 24 → m₁ < 60 → h₂ < 24 → m₂ < 60 →
        ((hhmm h₁ m₁ ≤ hhmm h₂ m₂) ↔ h₁ * 60 + m₁ ≤ h₂ * 60 + m₂)) := by
  refine ⟨?_, ?_, ?_, ?_⟩
  · intro tz data e he
    obtain ⟨r, hr⟩ := mem_processCalendarBody he
    obtain ⟨ts, hts⟩ := normalizeRecord_time hr
    rw [hts]
    exact formatHM_shape tz ts
  · intro tz v hv
    rw [normalizeRecord_not_obj hv]
    rfl
  · intro tz fields e hdate h
    obtain ⟨ts, c, t, a, f, p, hts, hc, htt, ha, hf, hp, he⟩ := normalizeRecord_obj_inv h
    simp only [dictGet, hdate, Option.getD_none, asTimestamp, Option.some.injEq] at hts
    rw [he, hts]
  · intro h₁ m₁ h₂ m₂ hh₁ hm₁ hh₂ hm₂
    exact hhmm_le_iff hh₁ hm₁ hh₂ hm₂

/-- C10 witness: the theorem applied at the concrete clock values 10:00 and
14:30, and at the non-dict record `42`. -/
theorem C10_time_wellformed_witness :
    ((hhmm 10 0 ≤ hhmm 14 30) ↔ 10 * 60 + 0 ≤ 14 * 60 + 30) ∧
      (normalizeRecord 0 (.num 42)).map EconomicEvent.time = some (formatHM 0 0) :=
  ⟨C10_time_wellformed.2.2.2 10 0 14 30 (by decide) (by decide) (by decide) (by decide),
    C10_time_wellformed.2.1 0 (.num 42) rfl⟩
